import Mathlib

/-!
Verification of the grid cell-reservation engine of the Obision desktop-icons
extension (`src/extension.js`).  The engine is shallowly embedded: the mutable
`_cells` 2D array becomes an explicit `Grid` value threaded through the
operations, JS numbers used as cell coordinates become `Int`, icon object
references become `Option Nat` identifiers (with `none` for JS `null`), and
the grid dimensions read from GSettings (`grid-columns` / `grid-rows`) are
carried in the `Grid` value, fixed at build time, as the source reads the same
settings in every operation of one build/use cycle.
-/

namespace DeskGrid

/-- One cell of the grid, as built by `_buildCellGrid`: position, pixel
geometry, icon reference and occupancy flag. -/
structure Cell where
  col : Int
  row : Int
  x : Int
  y : Int
  width : Int
  height : Int
  icon : Option Nat
  occupied : Bool
deriving Repr, DecidableEq

/-- The grid state: the dimensions read from settings at build time together
with the `_cells` column-major 2D array (`cells[col][row]`). -/
structure Grid where
  columns : Int
  rows : Int
  cells : List (List Cell)
deriving Repr, DecidableEq

/-- An icon footprint (`icon._cellSize`): width and height in cells. -/
structure CellSize where
  cols : Nat
  rows : Nat
deriving Repr, DecidableEq

/-- Embedding of `_buildCellGrid`: two nested `for` loops from `0` up to
`columns` resp. `rows` fill `_cells`; a non-positive bound simply means the
loop body never runs (`Int.toNat` of a non-positive value is `0`). -/
def _buildCellGrid (columns rows cellWidth cellHeight : Int) : Grid :=
  { columns := columns
    rows := rows
    cells := (List.range columns.toNat).map fun (col : Nat) =>
      (List.range rows.toNat).map fun (row : Nat) =>
        { col := (col : Int)
          row := (row : Int)
          x := (col : Int) * cellWidth
          y := (row : Int) * cellHeight
          width := cellWidth
          height := cellHeight
          icon := none
          occupied := false } }

/-- Error taxonomy of the spec's `build` operation. -/
inductive GridError where
  | invalidDimension
deriving Repr, DecidableEq

/-- Embedding of a call to `_buildCellGrid` as a fallible operation.  The
source performs no dimension validation and never throws, so every call
returns successfully. -/
def buildCellGridE (columns rows cellWidth cellHeight : Int) : Except GridError Grid :=
  Except.ok (_buildCellGrid columns rows cellWidth cellHeight)

/-- Modelled from the spec (for comparison with the source's `_buildCellGrid`):
"Fails with `InvalidDimension` if columns ≤ 0 or rows ≤ 0", otherwise
(re)initializes the cell table. -/
def buildSpec (columns rows cellWidth cellHeight : Int) : Except GridError Grid :=
  if columns ≤ 0 ∨ rows ≤ 0 then Except.error GridError.invalidDimension
  else Except.ok (_buildCellGrid columns rows cellWidth cellHeight)

/-- Embedding of `getCell`: `null` for negative or out-of-range coordinates,
otherwise the cell `_cells[col][row]`. -/
def getCell (g : Grid) (col row : Int) : Option Cell :=
  if col < 0 ∨ row < 0 then none
  else match g.cells[col.toNat]? with
    | none => none
    | some colList => colList[row.toNat]?

/-- Embedding of the JS mutation pattern `const cell = this.getCell(c, r);
if (cell) { …mutate cell… }`: rewriting one cell of the 2D array in place. -/
def modifyCell (g : Grid) (col row : Int) (f : Cell → Cell) : Grid :=
  if col < 0 ∨ row < 0 then g
  else match g.cells[col.toNat]? with
    | none => g
    | some colList =>
      match colList[row.toNat]? with
      | none => g
      | some cell =>
        { g with cells := g.cells.set col.toNat (colList.set row.toNat (f cell)) }

/-- The per-cell effect of `placeIconInCell`: `cell.occupied = true;
cell.icon = icon`. -/
def markCell (iconId : Nat) (c : Cell) : Cell :=
  { c with occupied := true, icon := some iconId }

/-- The grid positions a nested coordinate loop visits, flattened in its
iteration order (outer loop ascending first component, inner loop ascending
second component). -/
def applySteps (s : Grid → Int → Int → Grid) (L : List (Int × Int)) (g : Grid) : Grid :=
  L.foldl (fun acc p => s acc p.1 p.2) g

/-- The cells visited by the `placeIconInCell` loops, in iteration order:
`dc` in the outer loop, `dr` in the inner loop. -/
def placeOffsets (cellSize : CellSize) (col row : Int) : List (Int × Int) :=
  (List.range cellSize.cols).flatMap fun (dc : Nat) =>
    (List.range cellSize.rows).map fun (dr : Nat) => (col + (dc : Int), row + (dr : Int))

/-- Embedding of `placeIconInCell`: marks every in-bounds cell of the
placement, then reads the anchor cell back and returns the pixel position the
icon is moved to (`icon.set_position(cell.x, cell.y)`), or `none` when the
anchor is out of bounds and no positioning happens. -/
def placeIconInCell (g : Grid) (iconId : Nat) (cellSize : CellSize) (col row : Int) :
    Grid × Option (Int × Int) :=
  let g2 := applySteps (fun acc c r => modifyCell acc c r (markCell iconId))
    (placeOffsets cellSize col row) g
  match getCell g2 col row with
  | some cell => (g2, some (cell.x, cell.y))
  | none => (g2, none)

/-- The per-cell effect of `removeIconFromCells` on a matching cell:
`cell.icon = null; cell.occupied = false`. -/
def clearCell (c : Cell) : Cell :=
  { c with icon := none, occupied := false }

/-- The conditional per-cell effect of one `removeIconFromCells` iteration. -/
def clearIfOwned (iconId : Nat) (c : Cell) : Cell :=
  if c.icon = some iconId then clearCell c else c

/-- One iteration of the `removeIconFromCells` scan at `(col, row)`:
`if (cell && cell.icon === icon) { cell.icon = null; cell.occupied = false; }`. -/
def removeStep (iconId : Nat) (g : Grid) (col row : Int) : Grid :=
  match getCell g col row with
  | some cell =>
    if cell.icon = some iconId then
      modifyCell g col row clearCell
    else g
  | none => g

/-- The cells visited by the `removeIconFromCells` scan, in iteration order:
`col` in the outer loop, `row` in the inner loop. -/
def scanIndices (m n : Nat) : List (Int × Int) :=
  (List.range m).flatMap fun (col : Nat) =>
    (List.range n).map fun (row : Nat) => ((col : Int), (row : Int))

/-- Embedding of `removeIconFromCells`: scans all `(col, row)` with
`0 ≤ col < columns`, `0 ≤ row < rows` and clears every cell owned by the
icon. -/
def removeIconFromCells (g : Grid) (iconId : Nat) : Grid :=
  applySteps (removeStep iconId) (scanIndices g.columns.toNat g.rows.toNat) g

/-- The `areCellsFree` loop-body test: the scan returns `false` at a cell with
`cell.occupied && cell.icon !== excludeIcon`. -/
def cellFreeFor (excludeIcon : Option Nat) (c : Cell) : Bool :=
  if c.occupied = true ∧ c.icon ≠ excludeIcon then false else true

/-- One iteration of the `areCellsFree` loops: `return false` when the cell is
out of bounds (`if (!cell) return false`) or occupied by another icon. -/
def freeAt (g : Grid) (excludeIcon : Option Nat) (a b : Int) : Bool :=
  match getCell g a b with
  | none => false
  | some cell => cellFreeFor excludeIcon cell

/-- Embedding of `areCellsFree`: `cellSize.cols || 1` / `cellSize.rows || 1`
default a zero footprint component to `1`; every cell of the placement must
exist and pass `cellFreeFor`. -/
def areCellsFree (g : Grid) (col row : Int) (cellSize : CellSize)
    (excludeIcon : Option Nat) : Bool :=
  let cols := if cellSize.cols = 0 then 1 else cellSize.cols
  let rows := if cellSize.rows = 0 then 1 else cellSize.rows
  (List.range cols).all fun (dc : Nat) =>
    (List.range rows).all fun (dr : Nat) =>
      freeAt g excludeIcon (col + (dc : Int)) (row + (dr : Int))

/-- The anchors visited by `findFreeCell`, in its iteration order: `row` in
the outer loop, `col` in the inner loop (row-major). -/
def rowMajorAnchors (columns rows : Nat) : List (Int × Int) :=
  (List.range rows).flatMap fun (row : Nat) =>
    (List.range columns).map fun (col : Nat) => ((col : Int), (row : Int))

/-- Embedding of `findFreeCell`: the first anchor of the row-major scan whose
placement is free. -/
def findFreeCell (g : Grid) (cellSize : CellSize) (excludeIcon : Option Nat) :
    Option (Int × Int) :=
  (rowMajorAnchors g.columns.toNat g.rows.toNat).find? fun p =>
    areCellsFree g p.1 p.2 cellSize excludeIcon

/-- The offsets visited for one radius of the spiral search of
`findNearestFreeCell`, in iteration order (`dc` ascending, then `dr`
ascending), keeping only the square's perimeter
(`if (Math.abs(dc) !== radius && Math.abs(dr) !== radius) continue`). -/
def ringOffsets (radius : Nat) : List (Int × Int) :=
  ((List.range (2 * radius + 1)).flatMap fun (i : Nat) =>
    (List.range (2 * radius + 1)).map fun (j : Nat) =>
      ((i : Int) - (radius : Int), (j : Int) - (radius : Int))).filter
    fun p => !(p.1.natAbs ≠ radius ∧ p.2.natAbs ≠ radius : Bool)

/-- The candidate anchors of one radius ring, after the source's
`if (col < 0 || row < 0) continue` skip. -/
def ringCandidates (targetCol targetRow : Int) (radius : Nat) : List (Int × Int) :=
  ((ringOffsets radius).map fun p => (targetCol + p.1, targetRow + p.2)).filter
    fun q => !(q.1 < 0 ∨ q.2 < 0 : Bool)

/-- All candidates of the spiral search in visit order: radius `1` up to
`maxRadius`. -/
def spiralCandidates (targetCol targetRow : Int) (maxRadius : Nat) : List (Int × Int) :=
  (List.range maxRadius).flatMap fun (r : Nat) => ringCandidates targetCol targetRow (r + 1)

/-- Embedding of `findNearestFreeCell`: the target anchor if free, else the
first free candidate of the spiral search with `maxRadius = 20`, else
`null`. -/
def findNearestFreeCell (g : Grid) (targetCol targetRow : Int) (cellSize : CellSize)
    (excludeIcon : Option Nat) : Option (Int × Int) :=
  if areCellsFree g targetCol targetRow cellSize excludeIcon then
    some (targetCol, targetRow)
  else
    (spiralCandidates targetCol targetRow 20).find? fun p =>
      areCellsFree g p.1 p.2 cellSize excludeIcon

/-- Shape well-formedness: the `_cells` array actually has `columns` columns
of `rows` cells each — the spec's data-model invariant "columns × rows cells
exist at all times". -/
def GridWF (g : Grid) : Prop :=
  g.cells.length = g.columns.toNat ∧ ∀ colList ∈ g.cells, colList.length = g.rows.toNat

/-- The spec's per-cell invariant: the occupancy flag is set iff the cell
holds a non-null icon reference. -/
def cellConsistent (c : Cell) : Prop :=
  c.occupied = true ↔ c.icon ≠ none

/-- The per-cell invariant, over every cell of the grid. -/
def gridConsistent (g : Grid) : Prop :=
  ∀ col row c, getCell g col row = some c → cellConsistent c

/-- Grid states reachable by any sequence of `build`, `reserve` and `release`
operations. -/
inductive Reachable : Grid → Prop where
  | build (columns rows cellWidth cellHeight : Int) :
      Reachable (_buildCellGrid columns rows cellWidth cellHeight)
  | place {g : Grid} (h : Reachable g) (iconId : Nat) (cellSize : CellSize) (col row : Int) :
      Reachable (placeIconInCell g iconId cellSize col row).1
  | remove {g : Grid} (h : Reachable g) (iconId : Nat) :
      Reachable (removeIconFromCells g iconId)

theorem getCell_of_neg (g : Grid) (c r : Int) (h : c < 0 ∨ r < 0) :
    getCell g c r = none := by
  unfold getCell
  exact if_pos h

theorem columns_modifyCell (g : Grid) (c r : Int) (f : Cell → Cell) :
    (modifyCell g c r f).columns = g.columns := by
  unfold modifyCell
  split
  · rfl
  · split
    · rfl
    · split
      · rfl
      · rfl

theorem rows_modifyCell (g : Grid) (c r : Int) (f : Cell → Cell) :
    (modifyCell g c r f).rows = g.rows := by
  unfold modifyCell
  split
  · rfl
  · split
    · rfl
    · split
      · rfl
      · rfl

theorem modifyCell_of_getCell_none (g : Grid) (c r : Int) (f : Cell → Cell)
    (h : getCell g c r = none) : modifyCell g c r f = g := by
  unfold getCell at h
  unfold modifyCell
  by_cases hneg : c < 0 ∨ r < 0
  · exact if_pos hneg
  · rw [if_neg hneg] at h ⊢
    cases hc : g.cells[c.toNat]? with
    | none => simp only [hc]
    | some colList =>
      simp only [hc] at h ⊢
      simp only [h]

theorem getCell_modifyCell_self (g : Grid) (c r : Int) (f : Cell → Cell) (cell : Cell)
    (h : getCell g c r = some cell) :
    getCell (modifyCell g c r f) c r = some (f cell) := by
  unfold getCell at h
  by_cases hneg : c < 0 ∨ r < 0
  · rw [if_pos hneg] at h
    exact absurd h (by simp)
  · rw [if_neg hneg] at h
    cases hc : g.cells[c.toNat]? with
    | none =>
      simp only [hc] at h
      exact Option.noConfusion h
    | some colList =>
      simp only [hc] at h
      have hlc : c.toNat < g.cells.length := by
        rcases List.getElem?_eq_some_iff.mp hc with ⟨hlt, _⟩
        exact hlt
      have hlr : r.toNat < colList.length := by
        rcases List.getElem?_eq_some_iff.mp h with ⟨hlt, _⟩
        exact hlt
      unfold modifyCell getCell
      rw [if_neg hneg, if_neg hneg]
      simp only [hc, h]
      simp only [List.getElem?_set_self hlc, List.getElem?_set_self hlr]

theorem getCell_modifyCell_of_ne (g : Grid) (c r c' r' : Int) (f : Cell → Cell)
    (h : c' ≠ c ∨ r' ≠ r) :
    getCell (modifyCell g c r f) c' r' = getCell g c' r' := by
  unfold modifyCell
  by_cases hneg : c < 0 ∨ r < 0
  · rw [if_pos hneg]
  · rw [if_neg hneg]
    cases hc : g.cells[c.toNat]? with
    | none => simp only [hc]
    | some colList =>
      simp only [hc]
      cases hr : colList[r.toNat]? with
      | none => simp only []
      | some cell =>
        simp only []
        by_cases hneg' : c' < 0 ∨ r' < 0
        · rw [getCell_of_neg _ _ _ hneg', getCell_of_neg _ _ _ hneg']
        · unfold getCell
          rw [if_neg hneg', if_neg hneg']
          by_cases hcc : c'.toNat = c.toNat
          · have hceq : c' = c := by omega
            have hrne : r'.toNat ≠ r.toNat := by
              rcases h with h | h
              · exact absurd hceq h
              · omega
            have hlc : c.toNat < g.cells.length := by
              rcases List.getElem?_eq_some_iff.mp hc with ⟨hlt, _⟩
              exact hlt
            simp only [hcc, List.getElem?_set_self hlc, hc]
            simp only [List.getElem?_set_ne (fun hh => hrne hh.symm)]
          · simp only [List.getElem?_set_ne (fun hh => hcc hh.symm)]

theorem getCell_modifyCell (g : Grid) (c r c' r' : Int) (f : Cell → Cell) :
    getCell (modifyCell g c r f) c' r' =
      if c' = c ∧ r' = r then (getCell g c r).map f else getCell g c' r' := by
  by_cases heq : c' = c ∧ r' = r
  · rw [if_pos heq, heq.1, heq.2]
    cases h : getCell g c r with
    | none => rw [modifyCell_of_getCell_none g c r f h, h]; rfl
    | some cell => rw [getCell_modifyCell_self g c r f cell h]; rfl
  · rw [if_neg heq]
    rcases Decidable.not_and_iff_or_not.mp heq with h | h
    · exact getCell_modifyCell_of_ne g c r c' r' f (Or.inl h)
    · exact getCell_modifyCell_of_ne g c r c' r' f (Or.inr h)

theorem applySteps_of_fixed (s : Grid → Int → Int → Grid) (L : List (Int × Int)) (g : Grid)
    (h : ∀ p ∈ L, s g p.1 p.2 = g) : applySteps s L g = g := by
  induction L with
  | nil => rfl
  | cons p L ih =>
    show applySteps s L (s g p.1 p.2) = g
    rw [h p (List.mem_cons_self p L)]
    exact ih fun q hq => h q (List.mem_cons_of_mem p hq)

theorem getCell_applySteps (s : Grid → Int → Int → Grid) (t : Cell → Cell)
    (hne : ∀ g c r c' r', (c' ≠ c ∨ r' ≠ r) → getCell (s g c r) c' r' = getCell g c' r')
    (hself : ∀ g c r cell, getCell g c r = some cell → getCell (s g c r) c r = some (t cell))
    (hnone : ∀ g c r, getCell g c r = none → getCell (s g c r) c r = none)
    (hidem : ∀ cell, t (t cell) = t cell)
    (L : List (Int × Int)) (g : Grid) (c r : Int) :
    getCell (applySteps s L g) c r =
      (getCell g c r).map (fun cell => if (c, r) ∈ L then t cell else cell) := by
  induction L generalizing g with
  | nil =>
    simp only [applySteps, List.foldl_nil, List.not_mem_nil, if_false]
    cases getCell g c r <;> rfl
  | cons p L ih =>
    rw [show applySteps s (p :: L) g = applySteps s L (s g p.1 p.2) from rfl,
      ih (s g p.1 p.2)]
    cases hcell : getCell g c r with
    | none =>
      have h2 : getCell (s g p.1 p.2) c r = none := by
        by_cases hp : c = p.1 ∧ r = p.2
        · rw [hp.1, hp.2] at hcell ⊢
          exact hnone g p.1 p.2 hcell
        · rw [hne g p.1 p.2 c r (Decidable.not_and_iff_or_not.mp hp)]
          exact hcell
      rw [h2]
      rfl
    | some cell =>
      by_cases hp : c = p.1 ∧ r = p.2
      · have h2 : getCell (s g p.1 p.2) c r = some (t cell) := by
          rw [hp.1, hp.2] at hcell ⊢
          exact hself g p.1 p.2 cell hcell
        rw [h2]
        have hmem : (c, r) ∈ p :: L :=
          List.mem_cons.mpr (Or.inl (Prod.ext_iff.mpr ⟨hp.1, hp.2⟩))
        show some (if (c, r) ∈ L then t (t cell) else t cell)
          = some (if (c, r) ∈ p :: L then t cell else cell)
        rw [if_pos hmem]
        by_cases hm2 : (c, r) ∈ L
        · rw [if_pos hm2, hidem]
        · rw [if_neg hm2]
      · have hne' : c ≠ p.1 ∨ r ≠ p.2 := Decidable.not_and_iff_or_not.mp hp
        rw [hne g p.1 p.2 c r hne', hcell]
        show some (if (c, r) ∈ L then t cell else cell)
          = some (if (c, r) ∈ p :: L then t cell else cell)
        have hiff : ((c, r) ∈ p :: L) ↔ ((c, r) ∈ L) := by
          rw [List.mem_cons]
          constructor
          · rintro (he | hm)
            · exact absurd (Prod.ext_iff.mp he) hp
            · exact hm
          · exact Or.inr
        rw [if_congr hiff rfl rfl]

theorem place_fst (g : Grid) (iconId : Nat) (cellSize : CellSize) (col row : Int) :
    (placeIconInCell g iconId cellSize col row).1 =
      applySteps (fun acc c r => modifyCell acc c r (markCell iconId))
        (placeOffsets cellSize col row) g := by
  cases h : getCell (applySteps (fun acc c r => modifyCell acc c r (markCell iconId))
      (placeOffsets cellSize col row) g) col row <;>
    simp [placeIconInCell, h]

theorem getCell_place (g : Grid) (iconId : Nat) (cellSize : CellSize) (col row c r : Int) :
    getCell (placeIconInCell g iconId cellSize col row).1 c r =
      (getCell g c r).map
        (fun cell => if (c, r) ∈ placeOffsets cellSize col row then markCell iconId cell
          else cell) := by
  rw [place_fst]
  exact getCell_applySteps _ (markCell iconId)
    (fun g c r c' r' h => getCell_modifyCell_of_ne g c r c' r' _ h)
    (fun g c r cell h => getCell_modifyCell_self g c r _ cell h)
    (fun g c r h => by rw [modifyCell_of_getCell_none g c r _ h]; exact h)
    (fun cell => rfl)
    _ g c r

theorem getCell_removeStep_of_ne (iconId : Nat) (g : Grid) (c r c' r' : Int)
    (h : c' ≠ c ∨ r' ≠ r) :
    getCell (removeStep iconId g c r) c' r' = getCell g c' r' := by
  unfold removeStep
  cases hc : getCell g c r with
  | none => rfl
  | some cell =>
    show getCell (if cell.icon = some iconId then modifyCell g c r clearCell else g) c' r'
      = getCell g c' r'
    split
    · exact getCell_modifyCell_of_ne g c r c' r' clearCell h
    · rfl

theorem getCell_removeStep_self (iconId : Nat) (g : Grid) (c r : Int) (cell : Cell)
    (h : getCell g c r = some cell) :
    getCell (removeStep iconId g c r) c r = some (clearIfOwned iconId cell) := by
  unfold removeStep
  rw [h]
  show getCell (if cell.icon = some iconId then modifyCell g c r clearCell else g) c r
    = some (clearIfOwned iconId cell)
  unfold clearIfOwned
  by_cases hown : cell.icon = some iconId
  · rw [if_pos hown, if_pos hown]
    exact getCell_modifyCell_self g c r clearCell cell h
  · rw [if_neg hown, if_neg hown]
    exact h

theorem removeStep_of_getCell_none (iconId : Nat) (g : Grid) (c r : Int)
    (h : getCell g c r = none) : removeStep iconId g c r = g := by
  unfold removeStep
  rw [h]

theorem clearIfOwned_idem (iconId : Nat) (cell : Cell) :
    clearIfOwned iconId (clearIfOwned iconId cell) = clearIfOwned iconId cell := by
  unfold clearIfOwned clearCell
  split
  · simp
  · rfl

theorem getCell_remove (g : Grid) (iconId : Nat) (c r : Int) :
    getCell (removeIconFromCells g iconId) c r =
      (getCell g c r).map (fun cell =>
        if (c, r) ∈ scanIndices g.columns.toNat g.rows.toNat then clearIfOwned iconId cell
        else cell) := by
  unfold removeIconFromCells
  exact getCell_applySteps (removeStep iconId) (clearIfOwned iconId)
    (fun g c r c' r' h => getCell_removeStep_of_ne iconId g c r c' r' h)
    (fun g c r cell h => getCell_removeStep_self iconId g c r cell h)
    (fun g c r h => by rw [removeStep_of_getCell_none iconId g c r h]; exact h)
    (clearIfOwned_idem iconId) _ g c r

theorem columns_applySteps (s : Grid → Int → Int → Grid)
    (h : ∀ g c r, (s g c r).columns = g.columns) (L : List (Int × Int)) (g : Grid) :
    (applySteps s L g).columns = g.columns := by
  induction L generalizing g with
  | nil => rfl
  | cons p L ih =>
    show (applySteps s L (s g p.1 p.2)).columns = g.columns
    rw [ih, h]

theorem rows_applySteps (s : Grid → Int → Int → Grid)
    (h : ∀ g c r, (s g c r).rows = g.rows) (L : List (Int × Int)) (g : Grid) :
    (applySteps s L g).rows = g.rows := by
  induction L generalizing g with
  | nil => rfl
  | cons p L ih =>
    show (applySteps s L (s g p.1 p.2)).rows = g.rows
    rw [ih, h]

theorem columns_removeStep (iconId : Nat) (g : Grid) (c r : Int) :
    (removeStep iconId g c r).columns = g.columns := by
  unfold removeStep
  cases getCell g c r with
  | none => rfl
  | some cell =>
    show (if cell.icon = some iconId then modifyCell g c r clearCell else g).columns = g.columns
    split
    · exact columns_modifyCell g c r clearCell
    · rfl

theorem rows_removeStep (iconId : Nat) (g : Grid) (c r : Int) :
    (removeStep iconId g c r).rows = g.rows := by
  unfold removeStep
  cases getCell g c r with
  | none => rfl
  | some cell =>
    show (if cell.icon = some iconId then modifyCell g c r clearCell else g).rows = g.rows
    split
    · exact rows_modifyCell g c r clearCell
    · rfl

theorem columns_place (g : Grid) (iconId : Nat) (cellSize : CellSize) (col row : Int) :
    (placeIconInCell g iconId cellSize col row).1.columns = g.columns := by
  rw [place_fst]
  exact columns_applySteps _ (fun g c r => columns_modifyCell g c r _) _ g

theorem rows_place (g : Grid) (iconId : Nat) (cellSize : CellSize) (col row : Int) :
    (placeIconInCell g iconId cellSize col row).1.rows = g.rows := by
  rw [place_fst]
  exact rows_applySteps _ (fun g c r => rows_modifyCell g c r _) _ g

theorem columns_remove (g : Grid) (iconId : Nat) :
    (removeIconFromCells g iconId).columns = g.columns :=
  columns_applySteps _ (fun g c r => columns_removeStep iconId g c r) _ g

theorem rows_remove (g : Grid) (iconId : Nat) :
    (removeIconFromCells g iconId).rows = g.rows :=
  rows_applySteps _ (fun g c r => rows_removeStep iconId g c r) _ g

theorem wf_modifyCell (g : Grid) (c r : Int) (f : Cell → Cell) (h : GridWF g) :
    GridWF (modifyCell g c r f) := by
  unfold modifyCell
  split
  · exact h
  cases hc : g.cells[c.toNat]? with
  | none =>
    simp only [hc]
    exact h
  | some colList =>
    simp only [hc]
    cases hr : colList[r.toNat]? with
    | none =>
      simp only [hr]
      exact h
    | some cell =>
      simp only [hr]
      unfold GridWF
      refine ⟨?_, ?_⟩
      · show (g.cells.set c.toNat (colList.set r.toNat (f cell))).length = g.columns.toNat
        rw [List.length_set]
        exact h.1
      · intro cl hm
        have hm2 : cl ∈ g.cells.set c.toNat (colList.set r.toNat (f cell)) := hm
        rcases List.mem_or_eq_of_mem_set hm2 with hm' | he
        · exact h.2 cl hm'
        · rw [he, List.length_set]
          exact h.2 colList (List.getElem?_mem hc)

theorem wf_applySteps (s : Grid → Int → Int → Grid)
    (hs : ∀ g c r, GridWF g → GridWF (s g c r)) (L : List (Int × Int)) (g : Grid)
    (h : GridWF g) : GridWF (applySteps s L g) := by
  induction L generalizing g with
  | nil => exact h
  | cons p L ih =>
    show GridWF (applySteps s L (s g p.1 p.2))
    exact ih (s g p.1 p.2) (hs g p.1 p.2 h)

theorem wf_removeStep (iconId : Nat) (g : Grid) (c r : Int) (h : GridWF g) :
    GridWF (removeStep iconId g c r) := by
  unfold removeStep
  cases getCell g c r with
  | none => exact h
  | some cell =>
    show GridWF (if cell.icon = some iconId then modifyCell g c r clearCell else g)
    split
    · exact wf_modifyCell g c r clearCell h
    · exact h

theorem wf_place (g : Grid) (iconId : Nat) (cellSize : CellSize) (col row : Int)
    (h : GridWF g) : GridWF (placeIconInCell g iconId cellSize col row).1 := by
  rw [place_fst]
  exact wf_applySteps _ (fun g c r => wf_modifyCell g c r _) _ g h

theorem wf_remove (g : Grid) (iconId : Nat) (h : GridWF g) :
    GridWF (removeIconFromCells g iconId) :=
  wf_applySteps _ (fun g c r => wf_removeStep iconId g c r) _ g h

theorem wf_build (columns rows cellWidth cellHeight : Int) :
    GridWF (_buildCellGrid columns rows cellWidth cellHeight) := by
  unfold GridWF _buildCellGrid
  refine ⟨?_, ?_⟩
  · show ((List.range columns.toNat).map _).length = columns.toNat
    rw [List.length_map, List.length_range]
  · intro cl hm
    have hm2 : cl ∈ (List.range columns.toNat).map
        (fun (col : Nat) => (List.range rows.toNat).map fun (row : Nat) =>
          ({ col := (col : Int), row := (row : Int), x := (col : Int) * cellWidth,
             y := (row : Int) * cellHeight, width := cellWidth, height := cellHeight,
             icon := none, occupied := false } : Cell)) := hm
    rcases List.mem_map.mp hm2 with ⟨n, _, he⟩
    show cl.length = rows.toNat
    rw [← he, List.length_map, List.length_range]

theorem getCell_build (columns rows w h c r : Int) :
    getCell (_buildCellGrid columns rows w h) c r =
      if 0 ≤ c ∧ c < (columns.toNat : Int) ∧ 0 ≤ r ∧ r < (rows.toNat : Int) then
        some { col := c, row := r, x := c * w, y := r * h, width := w, height := h,
               icon := none, occupied := false }
      else none := by
  unfold getCell _buildCellGrid
  by_cases hneg : c < 0 ∨ r < 0
  · rw [if_pos hneg, if_neg (by omega)]
  · rw [if_neg hneg]
    simp only [List.getElem?_map]
    by_cases hcb : c.toNat < columns.toNat
    · rw [List.getElem?_range hcb]
      simp only [Option.map_some']
      simp only [List.getElem?_map]
      by_cases hrb : r.toNat < rows.toNat
      · rw [List.getElem?_range hrb]
        simp only [Option.map_some']
        rw [if_pos (by omega)]
        have hc' : ((c.toNat : Nat) : Int) = c := by omega
        have hr' : ((r.toNat : Nat) : Int) = r := by omega
        rw [hc', hr']
      · have hnone : (List.range rows.toNat)[r.toNat]? = none :=
          List.getElem?_eq_none (by rw [List.length_range]; omega)
        rw [hnone]
        simp only [Option.map_none']
        rw [if_neg (by omega)]
    · have hnone : (List.range columns.toNat)[c.toNat]? = none :=
        List.getElem?_eq_none (by rw [List.length_range]; omega)
      rw [hnone]
      simp only [Option.map_none']
      rw [if_neg (by omega)]

theorem cellFreeFor_eq_true_iff (ex : Option Nat) (c : Cell) :
    cellFreeFor ex c = true ↔ (c.occupied = false ∨ c.icon = ex) := by
  unfold cellFreeFor
  rcases hocc : c.occupied <;> by_cases hic : c.icon = ex <;> simp [hocc, hic]

theorem freeAt_eq_true_iff (g : Grid) (ex : Option Nat) (a b : Int) :
    freeAt g ex a b = true ↔
      ∃ cell, getCell g a b = some cell ∧ (cell.occupied = false ∨ cell.icon = ex) := by
  unfold freeAt
  cases hcell : getCell g a b with
  | none => simp [hcell]
  | some cell =>
    simp only [hcell]
    rw [cellFreeFor_eq_true_iff]
    constructor
    · intro hp
      exact ⟨cell, rfl, hp⟩
    · rintro ⟨c', hc', hp⟩
      cases Option.some.inj hc'
      exact hp

theorem areCellsFree_eq_true_iff (g : Grid) (col row : Int) (cs : CellSize)
    (ex : Option Nat) (hc : cs.cols ≠ 0) (hr : cs.rows ≠ 0) :
    areCellsFree g col row cs ex = true ↔
      ∀ dc < cs.cols, ∀ dr < cs.rows, ∃ cell,
        getCell g (col + (dc : Int)) (row + (dr : Int)) = some cell ∧
          (cell.occupied = false ∨ cell.icon = ex) := by
  unfold areCellsFree
  rw [if_neg hc, if_neg hr]
  simp only [List.all_eq_true, List.mem_range]
  constructor
  · intro hall dc hdc dr hdr
    exact (freeAt_eq_true_iff g ex _ _).mp (hall dc hdc dr hdr)
  · intro hall dc hdc dr hdr
    exact (freeAt_eq_true_iff g ex _ _).mpr (hall dc hdc dr hdr)

theorem areCellsFree_nonneg (g : Grid) (col row : Int) (cs : CellSize) (ex : Option Nat)
    (h : areCellsFree g col row cs ex = true) : 0 ≤ col ∧ 0 ≤ row := by
  unfold areCellsFree at h
  simp only [List.all_eq_true, List.mem_range] at h
  have h0 := h 0 (by split <;> omega) 0 (by split <;> omega)
  rw [freeAt_eq_true_iff] at h0
  rcases h0 with ⟨cell, hcell, _⟩
  by_contra hneg
  rw [getCell_of_neg g _ _ (by omega)] at hcell
  exact Option.noConfusion hcell

theorem mem_placeOffsets (cs : CellSize) (col row pc pr : Int) :
    (pc, pr) ∈ placeOffsets cs col row ↔
      ∃ dc < cs.cols, ∃ dr < cs.rows, pc = col + (dc : Int) ∧ pr = row + (dr : Int) := by
  unfold placeOffsets
  simp only [List.mem_flatMap, List.mem_map, List.mem_range, Prod.mk.injEq]
  constructor
  · rintro ⟨dc, hdc, dr, hdr, h1, h2⟩
    exact ⟨dc, hdc, dr, hdr, h1.symm, h2.symm⟩
  · rintro ⟨dc, hdc, dr, hdr, h1, h2⟩
    exact ⟨dc, hdc, dr, hdr, h1.symm, h2.symm⟩

theorem mem_scanIndices (m n : Nat) (pc pr : Int) :
    (pc, pr) ∈ scanIndices m n ↔ 0 ≤ pc ∧ pc < (m : Int) ∧ 0 ≤ pr ∧ pr < (n : Int) := by
  unfold scanIndices
  simp only [List.mem_flatMap, List.mem_map, List.mem_range, Prod.mk.injEq]
  constructor
  · rintro ⟨a, ha, b, hb, h1, h2⟩
    omega
  · rintro ⟨h1, h2, h3, h4⟩
    exact ⟨pc.toNat, by omega, pr.toNat, by omega, by omega, by omega⟩

theorem place_snd (g : Grid) (iconId : Nat) (cs : CellSize) (col row : Int) :
    (placeIconInCell g iconId cs col row).2 =
      (getCell g col row).map fun cell => (cell.x, cell.y) := by
  have hmain : getCell (placeIconInCell g iconId cs col row).1 col row
      = (getCell g col row).map (fun cell =>
          if (col, row) ∈ placeOffsets cs col row then markCell iconId cell else cell) :=
    getCell_place g iconId cs col row col row
  rw [place_fst] at hmain
  cases hg2 : getCell (applySteps (fun acc c r => modifyCell acc c r (markCell iconId))
      (placeOffsets cs col row) g) col row with
  | none =>
    simp only [placeIconInCell, hg2]
    rw [hg2] at hmain
    cases horig : getCell g col row with
    | none => rfl
    | some cell₀ =>
      rw [horig] at hmain
      exact absurd hmain.symm (by simp)
  | some cell =>
    simp only [placeIconInCell, hg2]
    rw [hg2] at hmain
    cases horig : getCell g col row with
    | none =>
      rw [horig] at hmain
      exact absurd hmain (by simp)
    | some cell₀ =>
      rw [horig] at hmain
      simp only [Option.map_some'] at hmain
      cases Option.some.inj hmain
      simp only [Option.map_some']
      split <;> rfl

/-- C1 (counterexample): at `columns = 0 ≤ 0` the source's cell-grid rebuild
succeeds (it returns normally after building an empty cell table), whereas the
claimed behaviour — failing with `InvalidDimension` — would require the
`Except.error` outcome that the spec-modelled `buildSpec` produces. -/
theorem build_counterexample :
    buildCellGridE 0 4 10 10 = Except.ok (_buildCellGrid 0 4 10 10) ∧
      buildSpec 0 4 10 10 = Except.error GridError.invalidDimension :=
  ⟨rfl, rfl⟩

/-- C1 (amended): `build` never fails — every call, including one with
non-positive columns or rows, returns successfully; a call with non-positive
dimensions yields a grid with no reachable cells. -/
theorem build_total (columns rows w h : Int) :
    (buildCellGridE columns rows w h).isOk = true ∧
      (columns ≤ 0 ∨ rows ≤ 0 →
        ∀ c r : Int, getCell (_buildCellGrid columns rows w h) c r = none) := by
  refine ⟨rfl, ?_⟩
  intro hdim c r
  rw [getCell_build, if_neg (by omega)]

theorem build_total_witness :
    ((-3 : Int) ≤ 0 ∨ (5 : Int) ≤ 0) ∧
      getCell (_buildCellGrid (-3) 5 2 2) 0 0 = none :=
  ⟨Or.inl (by decide), (build_total (-3) 5 2 2).2 (Or.inl (by decide)) 0 0⟩

/-- C2: `areCellsFree` returns true iff every cell of the placement is in
bounds and is either unoccupied or occupied by the excluded icon id. -/
theorem areCellsFree_characterization (g : Grid) (col row : Int) (cs : CellSize)
    (ex : Option Nat) (hc : 1 ≤ cs.cols) (hr : 1 ≤ cs.rows) :
    areCellsFree g col row cs ex = true ↔
      ∀ dc < cs.cols, ∀ dr < cs.rows, ∃ cell,
        getCell g (col + (dc : Int)) (row + (dr : Int)) = some cell ∧
          (cell.occupied = false ∨ cell.icon = ex) :=
  areCellsFree_eq_true_iff g col row cs ex (by omega) (by omega)

theorem areCellsFree_characterization_witness :
    ∃ cell, getCell (_buildCellGrid 2 2 1 1) (0 + ((0 : Nat) : Int)) (0 + ((0 : Nat) : Int))
        = some cell ∧ (cell.occupied = false ∨ cell.icon = none) :=
  (areCellsFree_characterization (_buildCellGrid 2 2 1 1) 0 0 ⟨1, 1⟩ none
    (by decide) (by decide)).mp (by decide) 0 (by decide) 0 (by decide)

/-- C3: after `reserve(id, A, F)` on a placement that was free, every cell of
the placement reports occupant `id`, and `areCellsFree(A, F)` is false for
any exclusion other than `id` (including no exclusion). -/
theorem reserve_marks_and_blocks (g : Grid) (iconId : Nat) (cs : CellSize) (col row : Int)
    (hc : 1 ≤ cs.cols) (hr : 1 ≤ cs.rows)
    (hfree : areCellsFree g col row cs none = true) :
    (∀ dc < cs.cols, ∀ dr < cs.rows, ∃ cell,
        getCell (placeIconInCell g iconId cs col row).1 (col + (dc : Int)) (row + (dr : Int))
          = some cell ∧ cell.icon = some iconId ∧ cell.occupied = true) ∧
      (∀ ex, ex ≠ some iconId →
        areCellsFree (placeIconInCell g iconId cs col row).1 col row cs ex = false) := by
  have hchar := (areCellsFree_eq_true_iff g col row cs none (by omega) (by omega)).mp hfree
  have hcellmark : ∀ dc < cs.cols, ∀ dr < cs.rows, ∃ cell₀,
      getCell g (col + (dc : Int)) (row + (dr : Int)) = some cell₀ ∧
        getCell (placeIconInCell g iconId cs col row).1 (col + (dc : Int)) (row + (dr : Int))
          = some (markCell iconId cell₀) := by
    intro dc hdc dr hdr
    rcases hchar dc hdc dr hdr with ⟨cell₀, hcell₀, _⟩
    refine ⟨cell₀, hcell₀, ?_⟩
    rw [getCell_place, hcell₀]
    simp only [Option.map_some']
    rw [if_pos ((mem_placeOffsets cs col row _ _).mpr ⟨dc, hdc, dr, hdr, rfl, rfl⟩)]
  constructor
  · intro dc hdc dr hdr
    rcases hcellmark dc hdc dr hdr with ⟨cell₀, _, hmark⟩
    exact ⟨markCell iconId cell₀, hmark, rfl, rfl⟩
  · intro ex hex
    cases hb : areCellsFree (placeIconInCell g iconId cs col row).1 col row cs ex with
    | false => rfl
    | true =>
      exfalso
      have hchar' := (areCellsFree_eq_true_iff _ col row cs ex (by omega) (by omega)).mp hb
      rcases hchar' 0 (by omega) 0 (by omega) with ⟨cell, hcell, hfree'⟩
      rcases hcellmark 0 (by omega) 0 (by omega) with ⟨cell₀, _, hmark⟩
      rw [hmark] at hcell
      cases Option.some.inj hcell
      rcases hfree' with hocc | hic
      · exact Bool.noConfusion hocc
      · exact hex hic.symm

theorem reserve_marks_and_blocks_witness :
    ∃ cell, getCell (placeIconInCell (_buildCellGrid 4 4 1 1) 5 ⟨2, 2⟩ 1 1).1
        (1 + ((0 : Nat) : Int)) (1 + ((0 : Nat) : Int)) = some cell ∧
        cell.icon = some 5 ∧ cell.occupied = true :=
  (reserve_marks_and_blocks (_buildCellGrid 4 4 1 1) 5 ⟨2, 2⟩ 1 1
    (by decide) (by decide) (by decide)).1 0 (by decide) 0 (by decide)

/-- C4: immediately after `build(columns, rows)` with positive dimensions,
every in-range cell exists and is free (unoccupied, null icon reference), and
`getCell` outside the range returns not-found; `getCell` is a pure query and
mutates nothing. -/
theorem build_fresh (columns rows w h : Int) (hcols : 0 < columns) (hrows : 0 < rows) :
    (∀ c r : Int, 0 ≤ c → c < columns → 0 ≤ r → r < rows →
        ∃ cell, getCell (_buildCellGrid columns rows w h) c r = some cell ∧
          cell.occupied = false ∧ cell.icon = none) ∧
      (∀ c r : Int, ¬(0 ≤ c ∧ c < columns ∧ 0 ≤ r ∧ r < rows) →
        getCell (_buildCellGrid columns rows w h) c r = none) := by
  constructor
  · intro c r h1 h2 h3 h4
    rw [getCell_build, if_pos (by omega)]
    exact ⟨_, rfl, rfl, rfl⟩
  · intro c r hout
    rw [getCell_build, if_neg (by omega)]

theorem build_fresh_witness :
    (∃ cell, getCell (_buildCellGrid 3 2 1 1) 2 1 = some cell ∧
        cell.occupied = false ∧ cell.icon = none) ∧
      getCell (_buildCellGrid 3 2 1 1) 3 0 = none :=
  ⟨(build_fresh 3 2 1 1 (by decide) (by decide)).1 2 1
      (by decide) (by decide) (by decide) (by decide),
    (build_fresh 3 2 1 1 (by decide) (by decide)).2 3 0 (by decide)⟩

/-- C9: every grid state reachable by any sequence of `build`, `reserve` and
`release` satisfies the per-cell invariant: the occupied flag is true iff the
cell holds a non-null icon reference. -/
theorem reachable_consistent (g : Grid) (h : Reachable g) : gridConsistent g := by
  induction h with
  | build columns rows w hh =>
    intro c r cell hcell
    rw [getCell_build] at hcell
    split at hcell
    · cases Option.some.inj hcell
      simp [cellConsistent]
    · exact Option.noConfusion hcell
  | place hre iconId cs col row ih =>
    rename_i g'
    intro c r cell hcell
    rw [getCell_place] at hcell
    cases horig : getCell g' c r with
    | none =>
      rw [horig] at hcell
      exact Option.noConfusion hcell
    | some cell₀ =>
      rw [horig] at hcell
      simp only [Option.map_some'] at hcell
      cases Option.some.inj hcell
      split
      · simp [cellConsistent, markCell]
      · exact ih c r cell₀ horig
  | remove hre iconId ih =>
    rename_i g'
    intro c r cell hcell
    rw [getCell_remove] at hcell
    cases horig : getCell g' c r with
    | none =>
      rw [horig] at hcell
      exact Option.noConfusion hcell
    | some cell₀ =>
      rw [horig] at hcell
      simp only [Option.map_some'] at hcell
      cases Option.some.inj hcell
      split
      · unfold clearIfOwned
        split
        · simp [cellConsistent, clearCell]
        · exact ih c r cell₀ horig
      · exact ih c r cell₀ horig

theorem reachable_consistent_witness :
    gridConsistent
      (removeIconFromCells
        (placeIconInCell (_buildCellGrid 2 2 1 1) 3 ⟨1, 1⟩ 0 0).1 3) :=
  reachable_consistent _
    (Reachable.remove (Reachable.place (Reachable.build 2 2 1 1) 3 ⟨1, 1⟩ 0 0) 3)

/-- C10: `reserve` is total even when the footprint extends beyond the grid: it
marks exactly the in-bounds placement cells as occupied by the icon, skips
out-of-bounds cells, leaves every other cell unchanged, and positions the icon
at the anchor cell exactly when the anchor itself is in bounds. -/
theorem place_marks_spec (g : Grid) (iconId : Nat) (cs : CellSize) (col row : Int) :
    (∀ dc < cs.cols, ∀ dr < cs.rows,
        getCell (placeIconInCell g iconId cs col row).1 (col + (dc : Int)) (row + (dr : Int)) =
          (getCell g (col + (dc : Int)) (row + (dr : Int))).map (markCell iconId)) ∧
      (∀ c r : Int,
        (∀ dc < cs.cols, ∀ dr < cs.rows, ¬(c = col + (dc : Int) ∧ r = row + (dr : Int))) →
        getCell (placeIconInCell g iconId cs col row).1 c r = getCell g c r) ∧
      (placeIconInCell g iconId cs col row).2 =
        (getCell g col row).map fun cell => (cell.x, cell.y) := by
  refine ⟨?_, ?_, place_snd g iconId cs col row⟩
  · intro dc hdc dr hdr
    rw [getCell_place]
    cases horig : getCell g (col + (dc : Int)) (row + (dr : Int)) with
    | none => rfl
    | some cell₀ =>
      simp only [Option.map_some']
      rw [if_pos ((mem_placeOffsets cs col row _ _).mpr ⟨dc, hdc, dr, hdr, rfl, rfl⟩)]
  · intro c r hout
    rw [getCell_place]
    have hnotmem : (c, r) ∉ placeOffsets cs col row := by
      intro hmem
      rcases (mem_placeOffsets cs col row c r).mp hmem with ⟨dc, hdc, dr, hdr, h1, h2⟩
      exact hout dc hdc dr hdr ⟨h1, h2⟩
    cases getCell g c r with
    | none => rfl
    | some cell₀ =>
      simp only [Option.map_some']
      rw [if_neg hnotmem]

theorem place_marks_spec_witness :
    getCell (placeIconInCell (_buildCellGrid 2 2 1 1) 9 ⟨2, 2⟩ 1 1).1
        (1 + ((1 : Nat) : Int)) (1 + ((0 : Nat) : Int)) =
      (getCell (_buildCellGrid 2 2 1 1) (1 + ((1 : Nat) : Int)) (1 + ((0 : Nat) : Int))).map
        (markCell 9) :=
  (place_marks_spec (_buildCellGrid 2 2 1 1) 9 ⟨2, 2⟩ 1 1).1 1
    (by decide) 0 (by decide)

theorem getCell_mem_scan (g : Grid) (hwf : GridWF g) (c r : Int) (cell : Cell)
    (h : getCell g c r = some cell) :
    (c, r) ∈ scanIndices g.columns.toNat g.rows.toNat := by
  unfold getCell at h
  by_cases hneg : c < 0 ∨ r < 0
  · rw [if_pos hneg] at h
    exact Option.noConfusion h
  · rw [if_neg hneg] at h
    cases hc : g.cells[c.toNat]? with
    | none =>
      simp only [hc] at h
      exact Option.noConfusion h
    | some colList =>
      simp only [hc] at h
      have h1 : c.toNat < g.cells.length := (List.getElem?_eq_some_iff.mp hc).1
      have h2 : r.toNat < colList.length := (List.getElem?_eq_some_iff.mp h).1
      rw [hwf.1] at h1
      rw [hwf.2 colList (List.getElem?_mem hc)] at h2
      rw [mem_scanIndices]
      omega

theorem getCell_remove_wf (g : Grid) (iconId : Nat) (hwf : GridWF g) (c r : Int) :
    getCell (removeIconFromCells g iconId) c r =
      (getCell g c r).map (clearIfOwned iconId) := by
  rw [getCell_remove]
  cases horig : getCell g c r with
  | none => rfl
  | some cell₀ =>
    simp only [Option.map_some']
    rw [if_pos (getCell_mem_scan g hwf c r cell₀ horig)]

theorem remove_noop (g : Grid) (iconId : Nat)
    (h : ∀ c r cell, getCell g c r = some cell → cell.icon ≠ some iconId) :
    removeIconFromCells g iconId = g := by
  unfold removeIconFromCells
  apply applySteps_of_fixed
  intro p _
  unfold removeStep
  cases hcell : getCell g p.1 p.2 with
  | none => rfl
  | some cell =>
    show (if cell.icon = some iconId then modifyCell g p.1 p.2 clearCell else g) = g
    rw [if_neg (h p.1 p.2 cell hcell)]

theorem getCell_remove_no_owner (g : Grid) (iconId : Nat) (pc pr : Int) (cell : Cell)
    (hmem : (pc, pr) ∈ scanIndices g.columns.toNat g.rows.toNat)
    (hcell : getCell (removeIconFromCells g iconId) pc pr = some cell) :
    cell.icon ≠ some iconId := by
  rw [getCell_remove] at hcell
  cases horig : getCell g pc pr with
  | none =>
    rw [horig] at hcell
    exact Option.noConfusion hcell
  | some cell₀ =>
    rw [horig] at hcell
    simp only [Option.map_some'] at hcell
    cases Option.some.inj hcell
    rw [if_pos hmem]
    unfold clearIfOwned
    split
    · simp [clearCell]
    · rename_i hno
      exact hno

theorem remove_idem (g : Grid) (iconId : Nat) :
    removeIconFromCells (removeIconFromCells g iconId) iconId
      = removeIconFromCells g iconId := by
  show applySteps (removeStep iconId)
      (scanIndices (removeIconFromCells g iconId).columns.toNat
        (removeIconFromCells g iconId).rows.toNat)
      (removeIconFromCells g iconId) = removeIconFromCells g iconId
  apply applySteps_of_fixed
  intro p hp
  obtain ⟨pc, pr⟩ := p
  rw [columns_remove, rows_remove] at hp
  unfold removeStep
  cases hcell : getCell (removeIconFromCells g iconId) pc pr with
  | none => rfl
  | some cell =>
    show (if cell.icon = some iconId
        then modifyCell (removeIconFromCells g iconId) pc pr clearCell
        else removeIconFromCells g iconId)
      = removeIconFromCells g iconId
    rw [if_neg (getCell_remove_no_owner g iconId pc pr cell hp hcell)]

/-- C8: `release(id)` is idempotent — it is a no-op when `id` occupies no
cells and applying it twice equals applying it once — and it clears exactly
the cells whose occupant equals `id`, leaving every other cell unchanged. -/
theorem release_idempotent_exact (g : Grid) (iconId : Nat) :
    ((∀ c r cell, getCell g c r = some cell → cell.icon ≠ some iconId) →
        removeIconFromCells g iconId = g) ∧
      removeIconFromCells (removeIconFromCells g iconId) iconId
        = removeIconFromCells g iconId ∧
      (GridWF g → ∀ c r : Int,
        getCell (removeIconFromCells g iconId) c r =
          (getCell g c r).map
            (fun cell => if cell.icon = some iconId then clearCell cell else cell)) :=
  ⟨fun h => remove_noop g iconId h, remove_idem g iconId,
    fun hwf c r => getCell_remove_wf g iconId hwf c r⟩

theorem release_idempotent_exact_witness :
    removeIconFromCells (_buildCellGrid 2 2 1 1) 7 = _buildCellGrid 2 2 1 1 :=
  (release_idempotent_exact (_buildCellGrid 2 2 1 1) 7).1 (by
    intro c r cell hcell
    rw [getCell_build] at hcell
    split at hcell
    · cases Option.some.inj hcell
      simp
    · exact Option.noConfusion hcell)

/-- C7: reserving a free placement and then releasing the icon restores the
placement's freedom: `areCellsFree` holds again with no exclusion. -/
theorem reserve_release_roundtrip (g : Grid) (iconId : Nat) (cs : CellSize) (col row : Int)
    (hwf : GridWF g) (hc : 1 ≤ cs.cols) (hr : 1 ≤ cs.rows)
    (hfree : areCellsFree g col row cs none = true) :
    areCellsFree (removeIconFromCells (placeIconInCell g iconId cs col row).1 iconId)
      col row cs none = true := by
  have hchar := (areCellsFree_eq_true_iff g col row cs none (by omega) (by omega)).mp hfree
  rw [areCellsFree_eq_true_iff _ col row cs none (by omega) (by omega)]
  intro dc hdc dr hdr
  rcases hchar dc hdc dr hdr with ⟨cell₀, hcell₀, _⟩
  have hmark : getCell (placeIconInCell g iconId cs col row).1
      (col + (dc : Int)) (row + (dr : Int)) = some (markCell iconId cell₀) := by
    rw [getCell_place, hcell₀]
    simp only [Option.map_some']
    rw [if_pos ((mem_placeOffsets cs col row _ _).mpr ⟨dc, hdc, dr, hdr, rfl, rfl⟩)]
  have hwf1 : GridWF (placeIconInCell g iconId cs col row).1 :=
    wf_place g iconId cs col row hwf
  have hrem := getCell_remove_wf (placeIconInCell g iconId cs col row).1 iconId hwf1
    (col + (dc : Int)) (row + (dr : Int))
  rw [hmark] at hrem
  simp only [Option.map_some'] at hrem
  refine ⟨_, hrem, Or.inl ?_⟩
  simp [clearIfOwned, markCell, clearCell]

theorem reserve_release_roundtrip_witness :
    areCellsFree
      (removeIconFromCells (placeIconInCell (_buildCellGrid 3 3 1 1) 4 ⟨2, 2⟩ 0 0).1 4)
      0 0 ⟨2, 2⟩ none = true :=
  reserve_release_roundtrip (_buildCellGrid 3 3 1 1) 4 ⟨2, 2⟩ 0 0
    (wf_build 3 3 1 1) (by decide) (by decide) (by decide)

theorem find?_first_of_pairwise {α : Type} {R : α → α → Prop} {p : α → Bool} {l : List α}
    {a : α} (hasym : ∀ x y, R x y → R y x → False)
    (hpw : l.Pairwise R) (h : l.find? p = some a) :
    ∀ b ∈ l, R b a → p b = false := by
  rcases List.find?_eq_some.mp h with ⟨hpa, as, bs, hsplit, hprefix⟩
  intro b hb hRba
  subst hsplit
  rcases List.mem_append.mp hb with hb1 | hb2
  · have := hprefix b hb1
    simpa using this
  · rcases List.mem_cons.mp hb2 with heq | hb3
    · rw [heq] at hRba
      exact (hasym a a hRba hRba).elim
    · have hpw2 := (List.pairwise_append.mp hpw).2.1
      have hRab := (List.pairwise_cons.mp hpw2).1 b hb3
      exact (hasym a b hRab hRba).elim

theorem mem_rowMajorAnchors (m n : Nat) (pc pr : Int) :
    (pc, pr) ∈ rowMajorAnchors m n ↔
      0 ≤ pc ∧ pc < (m : Int) ∧ 0 ≤ pr ∧ pr < (n : Int) := by
  unfold rowMajorAnchors
  simp only [List.mem_flatMap, List.mem_map, List.mem_range, Prod.mk.injEq]
  constructor
  · rintro ⟨b, hb, a, ha, h1, h2⟩
    omega
  · rintro ⟨h1, h2, h3, h4⟩
    exact ⟨pr.toNat, by omega, pc.toNat, by omega, by omega, by omega⟩

theorem pairwise_rowMajorAnchors (m n : Nat) :
    (rowMajorAnchors m n).Pairwise
      (fun q q' => q.2 < q'.2 ∨ (q.2 = q'.2 ∧ q.1 < q'.1)) := by
  unfold rowMajorAnchors
  rw [List.pairwise_flatMap]
  constructor
  · intro row _
    rw [List.pairwise_map]
    refine List.Pairwise.imp ?_ (List.pairwise_lt_range m)
    intro a b hab
    right
    refine ⟨rfl, ?_⟩
    show (a : Int) < (b : Int)
    omega
  · refine List.Pairwise.imp ?_ (List.pairwise_lt_range n)
    intro r1 r2 h12 x hx y hy
    rcases List.mem_map.mp hx with ⟨c1, _, rfl⟩
    rcases List.mem_map.mp hy with ⟨c2, _, rfl⟩
    left
    show (r1 : Int) < (r2 : Int)
    omega

theorem mem_ringOffsets (radius : Nat) (dc dr : Int) :
    (dc, dr) ∈ ringOffsets radius ↔
      dc.natAbs ≤ radius ∧ dr.natAbs ≤ radius ∧
        (dc.natAbs = radius ∨ dr.natAbs = radius) := by
  unfold ringOffsets
  rw [List.mem_filter]
  simp only [List.mem_flatMap, List.mem_map, List.mem_range, Prod.mk.injEq]
  constructor
  · rintro ⟨⟨i, hi, j, hj, h1, h2⟩, hperim⟩
    have hperim' : dc.natAbs = radius ∨ dr.natAbs = radius := by
      simpa using hperim
    omega
  · rintro ⟨h1, h2, h3⟩
    refine ⟨⟨(dc + radius).toNat, by omega, (dr + radius).toNat, by omega, by omega, by omega⟩, ?_⟩
    simp
    omega

theorem mem_ringCandidates (tc tr : Int) (radius : Nat) (pc pr : Int) :
    (pc, pr) ∈ ringCandidates tc tr radius ↔
      ((pc - tc).natAbs ≤ radius ∧ (pr - tr).natAbs ≤ radius ∧
        ((pc - tc).natAbs = radius ∨ (pr - tr).natAbs = radius)) ∧ 0 ≤ pc ∧ 0 ≤ pr := by
  unfold ringCandidates
  rw [List.mem_filter]
  constructor
  · rintro ⟨hmem, hpos⟩
    rcases List.mem_map.mp hmem with ⟨⟨dc, dr⟩, hoff, heq⟩
    have heq' : (tc + dc, tr + dr) = (pc, pr) := heq
    injection heq' with h1 h2
    rw [mem_ringOffsets] at hoff
    have hpos' : 0 ≤ pc ∧ 0 ≤ pr := by simpa using hpos
    refine ⟨⟨?_, ?_, ?_⟩, ?_, ?_⟩ <;> omega
  · rintro ⟨⟨h1, h2, h3⟩, h4, h5⟩
    refine ⟨List.mem_map.mpr ⟨(pc - tc, pr - tr),
      (mem_ringOffsets radius _ _).mpr ⟨h1, h2, h3⟩, ?_⟩, ?_⟩
    · show (tc + (pc - tc), tr + (pr - tr)) = (pc, pr)
      rw [Prod.mk.injEq]
      constructor <;> omega
    · simp
      omega

theorem mem_spiralCandidates (tc tr : Int) (maxR : Nat) (pc pr : Int) :
    (pc, pr) ∈ spiralCandidates tc tr maxR ↔
      1 ≤ max (pc - tc).natAbs (pr - tr).natAbs ∧
        max (pc - tc).natAbs (pr - tr).natAbs ≤ maxR ∧ 0 ≤ pc ∧ 0 ≤ pr := by
  unfold spiralCandidates
  simp only [List.mem_flatMap, List.mem_range]
  constructor
  · rintro ⟨ri, hri, hmem⟩
    rw [mem_ringCandidates] at hmem
    rcases hmem with ⟨⟨h1, h2, h3⟩, h4, h5⟩
    refine ⟨?_, ?_, h4, h5⟩ <;> omega
  · rintro ⟨h1, h2, h3, h4⟩
    refine ⟨max (pc - tc).natAbs (pr - tr).natAbs - 1, by omega, ?_⟩
    rw [mem_ringCandidates]
    refine ⟨⟨?_, ?_, ?_⟩, h3, h4⟩ <;> omega

theorem pairwise_lex_ringOffsets (radius : Nat) :
    (ringOffsets radius).Pairwise
      (fun p q => p.1 < q.1 ∨ (p.1 = q.1 ∧ p.2 < q.2)) := by
  unfold ringOffsets
  apply List.Pairwise.filter
  rw [List.pairwise_flatMap]
  constructor
  · intro i _
    rw [List.pairwise_map]
    refine List.Pairwise.imp ?_ (List.pairwise_lt_range _)
    intro a b hab
    right
    refine ⟨rfl, ?_⟩
    show (a : Int) - radius < (b : Int) - radius
    omega
  · refine List.Pairwise.imp ?_ (List.pairwise_lt_range _)
    intro i i' hii x hx y hy
    rcases List.mem_map.mp hx with ⟨j, _, rfl⟩
    rcases List.mem_map.mp hy with ⟨j', _, rfl⟩
    left
    show (i : Int) - radius < (i' : Int) - radius
    omega

theorem pairwise_lex_ringCandidates (tc tr : Int) (radius : Nat) :
    (ringCandidates tc tr radius).Pairwise
      (fun p q => p.1 < q.1 ∨ (p.1 = q.1 ∧ p.2 < q.2)) := by
  unfold ringCandidates
  apply List.Pairwise.filter
  rw [List.pairwise_map]
  refine List.Pairwise.imp ?_ (pairwise_lex_ringOffsets radius)
  intro p q h
  obtain ⟨dc, dr⟩ := p
  obtain ⟨dc', dr'⟩ := q
  dsimp only at h ⊢
  rcases h with h | ⟨h1, h2⟩
  · left
    omega
  · right
    exact ⟨by omega, by omega⟩

theorem pairwise_spiralCandidates (tc tr : Int) (maxR : Nat) :
    (spiralCandidates tc tr maxR).Pairwise (fun q q' =>
      max (q.1 - tc).natAbs (q.2 - tr).natAbs < max (q'.1 - tc).natAbs (q'.2 - tr).natAbs ∨
        (max (q.1 - tc).natAbs (q.2 - tr).natAbs = max (q'.1 - tc).natAbs (q'.2 - tr).natAbs ∧
          (q.1 < q'.1 ∨ (q.1 = q'.1 ∧ q.2 < q'.2)))) := by
  unfold spiralCandidates
  rw [List.pairwise_flatMap]
  constructor
  · intro ri _
    refine (pairwise_lex_ringCandidates tc tr (ri + 1)).imp_of_mem ?_
    intro a b ha hb hab
    obtain ⟨ac, ar⟩ := a
    obtain ⟨bc, br⟩ := b
    rw [mem_ringCandidates] at ha hb
    dsimp only at hab ⊢
    right
    constructor
    · omega
    · exact hab
  · refine List.Pairwise.imp ?_ (List.pairwise_lt_range maxR)
    intro ri ri' hlt x hx y hy
    obtain ⟨xc, xr⟩ := x
    obtain ⟨yc, yr⟩ := y
    rw [mem_ringCandidates] at hx hy
    dsimp only
    left
    omega

theorem rowMajor_asym (x y : Int × Int)
    (hxy : x.2 < y.2 ∨ (x.2 = y.2 ∧ x.1 < y.1))
    (hyx : y.2 < x.2 ∨ (y.2 = x.2 ∧ y.1 < x.1)) : False := by
  obtain ⟨x1, x2⟩ := x
  obtain ⟨y1, y2⟩ := y
  dsimp only at hxy hyx
  omega

theorem radius_lex_asym (tc tr : Int) (x y : Int × Int)
    (hxy : max (x.1 - tc).natAbs (x.2 - tr).natAbs < max (y.1 - tc).natAbs (y.2 - tr).natAbs ∨
      (max (x.1 - tc).natAbs (x.2 - tr).natAbs = max (y.1 - tc).natAbs (y.2 - tr).natAbs ∧
        (x.1 < y.1 ∨ (x.1 = y.1 ∧ x.2 < y.2))))
    (hyx : max (y.1 - tc).natAbs (y.2 - tr).natAbs < max (x.1 - tc).natAbs (x.2 - tr).natAbs ∨
      (max (y.1 - tc).natAbs (y.2 - tr).natAbs = max (x.1 - tc).natAbs (x.2 - tr).natAbs ∧
        (y.1 < x.1 ∨ (y.1 = x.1 ∧ y.2 < x.2)))) : False := by
  obtain ⟨x1, x2⟩ := x
  obtain ⟨y1, y2⟩ := y
  dsimp only at hxy hyx
  omega

/-- C5: `findFreeCell` returns the first anchor in row-major order (rows
top-to-bottom, columns left-to-right) whose placement is free, returns
not-found exactly when no in-grid anchor is free, and in particular any
anchor it returns satisfies `areCellsFree`; concretely, on a 4×4 grid with a
2×2 icon at (0,0), a 1×1 footprint is placed at (2,0). -/
theorem findFreeCell_spec (g : Grid) (cs : CellSize) (ex : Option Nat)
    (hcols : 0 ≤ g.columns) (hrows : 0 ≤ g.rows) :
    (∀ c r : Int, findFreeCell g cs ex = some (c, r) →
        areCellsFree g c r cs ex = true ∧
          (0 ≤ c ∧ c < g.columns ∧ 0 ≤ r ∧ r < g.rows) ∧
          ∀ c' r' : Int, 0 ≤ c' → c' < g.columns → 0 ≤ r' → r' < g.rows →
            (r' < r ∨ (r' = r ∧ c' < c)) → areCellsFree g c' r' cs ex = false) ∧
      (findFreeCell g cs ex = none ↔
        ∀ c r : Int, 0 ≤ c → c < g.columns → 0 ≤ r → r < g.rows →
          areCellsFree g c r cs ex = false) ∧
      findFreeCell (placeIconInCell (_buildCellGrid 4 4 1 1) 1 ⟨2, 2⟩ 0 0).1 ⟨1, 1⟩ none
        = some (2, 0) := by
  refine ⟨?_, ?_, by decide⟩
  · intro c r hfind
    unfold findFreeCell at hfind
    have hpred0 := List.find?_some hfind
    have hpred : areCellsFree g c r cs ex = true := hpred0
    have hmem := List.mem_of_find?_eq_some hfind
    rw [mem_rowMajorAnchors] at hmem
    refine ⟨hpred, by omega, ?_⟩
    intro c' r' h1 h2 h3 h4 hord
    have hmem' : (c', r') ∈ rowMajorAnchors g.columns.toNat g.rows.toNat := by
      rw [mem_rowMajorAnchors]
      omega
    have hfirst := find?_first_of_pairwise
      (fun x y hxy hyx => rowMajor_asym x y hxy hyx)
      (pairwise_rowMajorAnchors g.columns.toNat g.rows.toNat) hfind (c', r') hmem' hord
    exact hfirst
  · unfold findFreeCell
    rw [List.find?_eq_none]
    constructor
    · intro hall c r h1 h2 h3 h4
      have hnp := hall (c, r) ((mem_rowMajorAnchors _ _ _ _).mpr (by omega))
      cases hb : areCellsFree g c r cs ex with
      | false => rfl
      | true => exact absurd hb hnp
    · intro hall p hp
      obtain ⟨pc, pr⟩ := p
      rw [mem_rowMajorAnchors] at hp
      have hfa := hall pc pr (by omega) (by omega) (by omega) (by omega)
      intro hcontra
      have hcontra' : areCellsFree g pc pr cs ex = true := hcontra
      rw [hfa] at hcontra'
      exact Bool.noConfusion hcontra'

theorem findFreeCell_spec_witness :
    areCellsFree (placeIconInCell (_buildCellGrid 4 4 1 1) 1 ⟨2, 2⟩ 0 0).1 2 0 ⟨1, 1⟩ none
      = true :=
  ((findFreeCell_spec (placeIconInCell (_buildCellGrid 4 4 1 1) 1 ⟨2, 2⟩ 0 0).1 ⟨1, 1⟩ none
      (by decide) (by decide)).1 2 0 (by decide)).1

/-- C6: `findNearestFreeCell` returns the target anchor whenever it is free;
otherwise it searches square perimeter rings of Chebyshev radius 1 to 20 in
nested-loop order (`dc` ascending, then `dr` ascending), skipping candidates
with a negative coordinate, returning the first free candidate, and not-found
exactly when the rings are exhausted; it never returns negative coordinates. -/
theorem findNearestFreeCell_spec (g : Grid) (tc tr : Int) (cs : CellSize) (ex : Option Nat) :
    (areCellsFree g tc tr cs ex = true → findNearestFreeCell g tc tr cs ex = some (tc, tr)) ∧
      (∀ c r : Int, findNearestFreeCell g tc tr cs ex = some (c, r) →
        0 ≤ c ∧ 0 ≤ r ∧ areCellsFree g c r cs ex = true) ∧
      (findNearestFreeCell g tc tr cs ex = none ↔
        areCellsFree g tc tr cs ex = false ∧
          ∀ c r : Int, 0 ≤ c → 0 ≤ r →
            1 ≤ max (c - tc).natAbs (r - tr).natAbs →
            max (c - tc).natAbs (r - tr).natAbs ≤ 20 →
            areCellsFree g c r cs ex = false) ∧
      (∀ c r : Int, findNearestFreeCell g tc tr cs ex = some (c, r) → (c, r) ≠ (tc, tr) →
        areCellsFree g tc tr cs ex = false ∧
          1 ≤ max (c - tc).natAbs (r - tr).natAbs ∧
          max (c - tc).natAbs (r - tr).natAbs ≤ 20 ∧
          ∀ c' r' : Int, 0 ≤ c' → 0 ≤ r' →
            1 ≤ max (c' - tc).natAbs (r' - tr).natAbs →
            max (c' - tc).natAbs (r' - tr).natAbs ≤ 20 →
            (max (c' - tc).natAbs (r' - tr).natAbs < max (c - tc).natAbs (r - tr).natAbs ∨
              (max (c' - tc).natAbs (r' - tr).natAbs = max (c - tc).natAbs (r - tr).natAbs ∧
                (c' < c ∨ (c' = c ∧ r' < r)))) →
            areCellsFree g c' r' cs ex = false) := by
  refine ⟨?_, ?_, ?_, ?_⟩
  · intro hfree
    unfold findNearestFreeCell
    rw [if_pos hfree]
  · intro c r hfind
    unfold findNearestFreeCell at hfind
    split at hfind
    · rename_i hfree
      have heq := Option.some.inj hfind
      rw [Prod.mk.injEq] at heq
      obtain ⟨rfl, rfl⟩ := heq
      have hnn := areCellsFree_nonneg g tc tr cs ex hfree
      exact ⟨hnn.1, hnn.2, hfree⟩
    · have hpred0 := List.find?_some hfind
      have hpred : areCellsFree g c r cs ex = true := hpred0
      have hmem := List.mem_of_find?_eq_some hfind
      rw [mem_spiralCandidates] at hmem
      exact ⟨by omega, by omega, hpred⟩
  · unfold findNearestFreeCell
    split
    · rename_i hfree
      constructor
      · intro hcontra
        exact Option.noConfusion hcontra
      · rintro ⟨hfalse, _⟩
        rw [hfree] at hfalse
        exact Bool.noConfusion hfalse
    · rename_i hfree
      rw [List.find?_eq_none]
      constructor
      · intro hall
        refine ⟨?_, ?_⟩
        · cases hb : areCellsFree g tc tr cs ex with
          | false => rfl
          | true => exact absurd hb hfree
        · intro c r h1 h2 h3 h4
          have hnp := hall (c, r) ((mem_spiralCandidates tc tr 20 c r).mpr ⟨h3, h4, h1, h2⟩)
          cases hb : areCellsFree g c r cs ex with
          | false => rfl
          | true => exact absurd hb hnp
      · rintro ⟨_, hall⟩ p hp
        obtain ⟨pc, pr⟩ := p
        rw [mem_spiralCandidates] at hp
        have hfa := hall pc pr (by omega) (by omega) (by omega) (by omega)
        intro hcontra
        have hcontra' : areCellsFree g pc pr cs ex = true := hcontra
        rw [hfa] at hcontra'
        exact Bool.noConfusion hcontra'
  · intro c r hfind hne
    unfold findNearestFreeCell at hfind
    split at hfind
    · exact absurd (Option.some.inj hfind).symm hne
    · rename_i hfree
      have hmem := List.mem_of_find?_eq_some hfind
      rw [mem_spiralCandidates] at hmem
      have hfreefalse : areCellsFree g tc tr cs ex = false := by
        cases hb : areCellsFree g tc tr cs ex with
        | false => rfl
        | true => exact absurd hb hfree
      refine ⟨hfreefalse, by omega, by omega, ?_⟩
      intro c' r' h1 h2 h3 h4 hord
      have hmem' : (c', r') ∈ spiralCandidates tc tr 20 :=
        (mem_spiralCandidates tc tr 20 c' r').mpr ⟨h3, h4, h1, h2⟩
      have hfirst := find?_first_of_pairwise
        (fun x y hxy hyx => radius_lex_asym tc tr x y hxy hyx)
        (pairwise_spiralCandidates tc tr 20) hfind (c', r') hmem' hord
      exact hfirst

theorem findNearestFreeCell_spec_witness :
    findNearestFreeCell (_buildCellGrid 3 3 1 1) 1 1 ⟨1, 1⟩ none = some (1, 1) :=
  (findNearestFreeCell_spec (_buildCellGrid 3 3 1 1) 1 1 ⟨1, 1⟩ none).1 (by decide)

end DeskGrid
